import Mathlib

/-!
Verification of apr_ldap_rebind.c (apr-util): the LDAP rebind credential
registry used when chasing referrals.

The C module keeps a global singly linked list of entries
(pool, LDAP handle, bindDN, bindPW), guarded by a mutex, plus pool
cleanups that auto-remove entries on pool destruction, and per-SDK
rebind callback shims (Tivoli and OpenLDAP style).

The shallow embedding below models:
  - LDAP handles and pools as natural-number identities (the registry
    compares them by identity only and never dereferences them);
  - the global mutable state (mutex created flag, list head, and the
    set of armed pool cleanups) as an explicit `RebindState` record
    threaded through each operation;
  - C NULL strings as `none : Option String`;
  - undefined behavior (strdup of a null pointer) as a `none` result
    of the affected callback.
Mutex lock and unlock calls bracket every list operation in the C code
and are not observable in this sequential model.
-/

/-- APR status code APR_SUCCESS. -/
def APR_SUCCESS : Nat := 0

/-- APR status code APR_ENOMEM (allocation failure). -/
def APR_ENOMEM : Nat := 12

/-- APR status code APR_ENOTIMPL (APR_OS_START_ERROR + 23). -/
def APR_ENOTIMPL : Nat := 20023

/-- LDAP result code LDAP_SUCCESS. -/
def LDAP_SUCCESS : Nat := 0

/-- LDAP simple authentication method code (0x80). -/
def LDAP_AUTH_SIMPLE : Nat := 128

/-- Identity of an LDAP connection handle (the C `LDAP *`, compared only by
pointer equality). -/
abbrev LDAPHandle := Nat

/-- Identity of an APR pool (the C `apr_pool_t *`). -/
abbrev PoolId := Nat

/-- One registry entry: struct apr_ldap_rebind_entry. `bindDN` and `bindPW`
are `none` exactly when the C fields are NULL (apr_pcalloc zeroes the
struct; the fields are only assigned when the caller passed non-NULL). -/
structure RebindEntry where
  pool : PoolId
  index : LDAPHandle
  bindDN : Option String
  bindPW : Option String
deriving DecidableEq, Repr

/-- The global mutable state of the module: whether apr_ldap_xref_lock has
been created, the xref list headed at xref_head, and the pool cleanups
currently armed (pairs of the pool the cleanup is registered on and the
LDAP handle passed as cleanup data). apr_pool_cleanup_register prepends,
so within one pool the head-most pair is the most recently armed. -/
structure RebindState where
  lock : Bool
  xref_head : List RebindEntry
  cleanups : List (PoolId × LDAPHandle)
deriving DecidableEq, Repr

/-- The initial state of the module: no lock, empty list, no cleanups. -/
def initialRebindState : RebindState :=
  { lock := false, xref_head := [], cleanups := [] }

/-- The scan loop of apr_ldap_rebind_lookup: walk the list from the head and
return the first entry whose `index` equals the handle. -/
def lookupScan (ld : LDAPHandle) : List RebindEntry → Option RebindEntry
  | [] => none
  | e :: rest => if e.index = ld then some e else lookupScan ld rest

/-- Translation of apr_ldap_rebind_lookup (the mutex acquire and release are
not observable in this sequential model). -/
def apr_ldap_rebind_lookup (ld : LDAPHandle) (s : RebindState) :
    Option RebindEntry :=
  lookupScan ld s.xref_head

/-- The scan-and-unlink loop of apr_ldap_rebind_remove: return the first
entry whose `index` equals the handle (if any) together with the list with
that one entry unlinked. -/
def removeScan (ld : LDAPHandle) :
    List RebindEntry → Option RebindEntry × List RebindEntry
  | [] => (none, [])
  | e :: rest =>
    if e.index = ld then (some e, rest)
    else
      let r := removeScan ld rest
      (r.1, e :: r.2)

/-- Translation of apr_pool_cleanup_kill for the rebind cleanups: unregister
the first armed cleanup matching the given pool and data (all rebind
cleanups use the same cleanup function). -/
def killCleanup (p : PoolId) (ld : LDAPHandle) :
    List (PoolId × LDAPHandle) → List (PoolId × LDAPHandle)
  | [] => []
  | c :: rest => if c = (p, ld) then rest else c :: killCleanup p ld rest

/-- Translation of apr_ldap_rebind_remove: unlink the first matching entry
(fixing up the head pointer or the predecessor) and disarm the cleanup
registered on the pool of that entry for that handle; always returns
APR_SUCCESS. -/
def apr_ldap_rebind_remove (ld : LDAPHandle) (s : RebindState) :
    Nat × RebindState :=
  match removeScan ld s.xref_head with
  | (some e, rest) =>
    (APR_SUCCESS,
      { s with xref_head := rest,
               cleanups := killCleanup e.pool e.index s.cleanups })
  | (none, _) => (APR_SUCCESS, s)

/-- Translation of apr_ldap_rebind_remove_helper: the pool cleanup function,
which calls remove on its data and returns APR_SUCCESS. -/
def apr_ldap_rebind_remove_helper (data : LDAPHandle) (s : RebindState) :
    Nat × RebindState :=
  (APR_SUCCESS, (apr_ldap_rebind_remove data s).2)

/-- The compile-time LDAP SDK selection: APR_HAS_TIVOLI_LDAPSDK,
APR_HAS_OPENLDAP_LDAPSDK, or no recognized implementation. -/
inductive LDAPVariant where
  | tivoli
  | openldap
  | unrecognized
deriving DecidableEq, Repr

/-- Return code of apr_ldap_rebind_set_callback in each build: the Tivoli
and OpenLDAP builds install the rebind proc on the handle and return
APR_SUCCESS; the unrecognized build returns APR_ENOTIMPL. -/
def apr_ldap_rebind_set_callback : LDAPVariant → Nat
  | .tivoli => APR_SUCCESS
  | .openldap => APR_SUCCESS
  | .unrecognized => APR_ENOTIMPL

/-- Translation of apr_ldap_rebind_add. `allocOk` is the outcome of the
apr_pcalloc allocation of the new entry (the C checks it and returns
APR_ENOMEM on failure before touching the list). On allocation success the
new entry is prepended; if installing the callback fails the entry is
rolled back via remove and the failure code returned; otherwise a cleanup
is registered on the pool for the handle and APR_SUCCESS returned. -/
def apr_ldap_rebind_add (variant : LDAPVariant) (allocOk : Bool)
    (pool : PoolId) (ld : LDAPHandle) (bindDN bindPW : Option String)
    (s : RebindState) : Nat × RebindState :=
  if allocOk then
    let new_xref : RebindEntry :=
      { pool := pool, index := ld, bindDN := bindDN, bindPW := bindPW }
    let s1 := { s with xref_head := new_xref :: s.xref_head }
    let retcode := apr_ldap_rebind_set_callback variant
    if retcode ≠ APR_SUCCESS then
      (retcode, (apr_ldap_rebind_remove ld s1).2)
    else
      (APR_SUCCESS, { s1 with cleanups := (pool, ld) :: s1.cleanups })
  else
    (APR_ENOMEM, s)

/-- Translation of apr_ldap_rebind_init: create the xref lock once; on any
later call the lock is already non-null and APR_SUCCESS is returned without
touching it. `createStatus` is the outcome of apr_thread_mutex_create,
which sets the lock exactly when it returns APR_SUCCESS. -/
def apr_ldap_rebind_init (createStatus : Nat) (s : RebindState) :
    Nat × RebindState :=
  if s.lock = false then
    (createStatus,
      if createStatus = APR_SUCCESS then { s with lock := true } else s)
  else
    (APR_SUCCESS, s)

/-- Pop the most recently armed cleanup of the given pool: APR runs the
cleanups of a pool in reverse registration order, and registration
prepends, so the first matching pair in the list is run first. -/
def popCleanup (p : PoolId) : List (PoolId × LDAPHandle) →
    Option (LDAPHandle × List (PoolId × LDAPHandle))
  | [] => none
  | c :: rest =>
    if c.1 = p then some (c.2, rest)
    else
      match popCleanup p rest with
      | none => none
      | some (h, r) => some (h, c :: r)

/-- Run the armed cleanups of a pool, most recently registered first; each
run cleanup is unregistered and invokes apr_ldap_rebind_remove_helper on
its handle. Fuel bounds the iteration; each step strictly shrinks the
cleanup list. -/
def run_cleanups (p : PoolId) : Nat → RebindState → RebindState
  | 0, s => s
  | Nat.succ fuel, s =>
    match popCleanup p s.cleanups with
    | none => s
    | some (h, rest) =>
      run_cleanups p fuel
        (apr_ldap_rebind_remove_helper h { s with cleanups := rest }).2

/-- Model of apr_pool_destroy restricted to its observable effect on this
module: fire every cleanup armed on the pool (LIFO), each of which calls
remove on its handle. -/
def apr_pool_destroy (p : PoolId) (s : RebindState) : RebindState :=
  run_cleanups p s.cleanups.length s

/-- Model of C strdup: copies a non-null string; on a null pointer the
behavior is undefined (glibc dereferences it), modelled as `none`. -/
def strdup : Option String → Option (Option String)
  | none => none
  | some str => some (some str)

/-- Translation of the Tivoli-style LDAP_rebindproc. Result
`some (rc, binddn, passwd, method)` gives the return code and the values
left in the out parameters; `none` models undefined behavior (the C calls
strdup on the entry bindPW, which may be NULL, whenever bindDN is
non-NULL). In the freeit branch the engine-owned strings are released and
the method out parameter is left untouched. -/
def LDAP_rebindproc_tivoli (s : RebindState) (ld : LDAPHandle)
    (binddnp passwdp : Option String) (methodp : Nat) (freeit : Bool) :
    Option (Nat × Option String × Option String × Nat) :=
  if freeit = false then
    match apr_ldap_rebind_lookup ld s with
    | some my_conn =>
      if my_conn.bindDN.isSome then
        match strdup my_conn.bindDN, strdup my_conn.bindPW with
        | some dn1, some pw1 => some (LDAP_SUCCESS, dn1, pw1, LDAP_AUTH_SIMPLE)
        | _, _ => none
      else
        some (LDAP_SUCCESS, none, none, LDAP_AUTH_SIMPLE)
    | none => some (LDAP_SUCCESS, none, none, LDAP_AUTH_SIMPLE)
  else
    some (LDAP_SUCCESS, none, none, methodp)

/-- Translation of the OpenLDAP-style LDAP_rebindproc, parametrized by the
engine bind primitive ldap_bind_s (handle, DN, password, method, giving an
int result). The shim looks the handle up, picks the entry credentials
when present with a non-null DN (NULL otherwise), calls ldap_bind_s with
LDAP_AUTH_SIMPLE, and returns its result directly. -/
def LDAP_rebindproc_openldap
    (ldap_bind_s : LDAPHandle → Option String → Option String → Nat → Int)
    (s : RebindState) (ld : LDAPHandle) : Int :=
  let my_conn := apr_ldap_rebind_lookup ld s
  let creds : Option String × Option String :=
    match my_conn with
    | some c => if c.bindDN.isSome then (c.bindDN, c.bindPW) else (none, none)
    | none => (none, none)
  ldap_bind_s ld creds.1 creds.2 LDAP_AUTH_SIMPLE

/-- Modelled from the spec (for the refinement claim about the OpenLDAP
shim): the credentials the spec says the rebind replays, namely exactly the
registered DN and secret, or nulls when no entry or no DN is registered. -/
def specRebindCredentials (s : RebindState) (ld : LDAPHandle) :
    Option String × Option String :=
  match apr_ldap_rebind_lookup ld s with
  | none => (none, none)
  | some e =>
    match e.bindDN with
    | none => (none, none)
    | some dn => (some dn, e.bindPW)

/-- One externally triggered operation on the registry: an add (with its
allocation outcome), a remove, or the destruction of a pool. -/
inductive RebindOp where
  | addOp (allocOk : Bool) (pool : PoolId) (ld : LDAPHandle)
      (bindDN bindPW : Option String)
  | removeOp (ld : LDAPHandle)
  | destroyOp (pool : PoolId)

/-- Interpretation of one operation on the state, in a fixed build
variant. -/
def runOp (variant : LDAPVariant) : RebindOp → RebindState → RebindState
  | .addOp ok p ld dn pw, s => (apr_ldap_rebind_add variant ok p ld dn pw s).2
  | .removeOp ld, s => (apr_ldap_rebind_remove ld s).2
  | .destroyOp p, s => apr_pool_destroy p s

/-- Interpretation of a sequence of operations, first operation first. -/
def runOps (variant : LDAPVariant) (ops : List RebindOp) (s : RebindState) :
    RebindState :=
  ops.foldl (fun t op => runOp variant op t) s

/-- An operation neither touches handle H nor destroys pool p: the frame of
the persistence claim for an entry registered on p for H. -/
def opAvoids (H : LDAPHandle) (p : PoolId) : RebindOp → Prop
  | .addOp _ _ ld _ _ => ld ≠ H
  | .removeOp ld => ld ≠ H
  | .destroyOp q => q ≠ p

/-- The state tracks entry e for handle H owned by pool p: the head-first
scan for H yields e, and every armed cleanup for H is registered on p. -/
def tracks (H : LDAPHandle) (p : PoolId) (e : RebindEntry)
    (s : RebindState) : Prop :=
  lookupScan H s.xref_head = some e ∧
    ∀ c ∈ s.cleanups, c.2 = H → c.1 = p

/-! ### Basic lemmas about the scans -/

theorem lookupScan_nil (ld : LDAPHandle) : lookupScan ld [] = none := rfl

theorem lookupScan_cons_self {e : RebindEntry} {ld : LDAPHandle}
    (h : e.index = ld) (l : List RebindEntry) :
    lookupScan ld (e :: l) = some e := by
  simp [lookupScan, h]

theorem lookupScan_cons_ne {e : RebindEntry} {ld : LDAPHandle}
    (h : e.index ≠ ld) (l : List RebindEntry) :
    lookupScan ld (e :: l) = lookupScan ld l := by
  simp [lookupScan, h]

theorem lookupScan_eq_none_iff (ld : LDAPHandle) (l : List RebindEntry) :
    lookupScan ld l = none ↔ ∀ e ∈ l, e.index ≠ ld := by
  induction l with
  | nil => simp [lookupScan]
  | cons e rest ih =>
    by_cases h : e.index = ld
    · simp [lookupScan, h]
    · simp [lookupScan, h, ih]

theorem removeScan_fst (ld : LDAPHandle) (l : List RebindEntry) :
    (removeScan ld l).1 = lookupScan ld l := by
  induction l with
  | nil => rfl
  | cons e rest ih =>
    by_cases h : e.index = ld
    · simp [removeScan, lookupScan, h]
    · simp [removeScan, lookupScan, h, ih]

theorem removeScan_of_lookup_none {ld : LDAPHandle} {l : List RebindEntry}
    (h : lookupScan ld l = none) : removeScan ld l = (none, l) := by
  induction l with
  | nil => rfl
  | cons e rest ih =>
    by_cases he : e.index = ld
    · rw [lookupScan_cons_self he] at h
      exact absurd h (by simp)
    · rw [lookupScan_cons_ne he] at h
      simp [removeScan, he, ih h]

theorem mem_removeScan_snd {ld : LDAPHandle} {l : List RebindEntry}
    {e : RebindEntry} (h : e ∈ (removeScan ld l).2) : e ∈ l := by
  induction l with
  | nil => simp [removeScan] at h
  | cons a rest ih =>
    by_cases ha : a.index = ld
    · simp only [removeScan, if_pos ha] at h
      exact List.mem_cons_of_mem _ h
    · simp only [removeScan, if_neg ha, List.mem_cons] at h
      rcases h with h | h
      · exact h ▸ List.mem_cons_self _ _
      · exact List.mem_cons_of_mem _ (ih h)

theorem lookupScan_removeScan_ne {ld H : LDAPHandle}
    (hne : ld ≠ H) (l : List RebindEntry) :
    lookupScan H (removeScan ld l).2 = lookupScan H l := by
  induction l with
  | nil => rfl
  | cons e rest ih =>
    by_cases he : e.index = ld
    · have heH : e.index ≠ H := he ▸ hne
      simp only [removeScan, if_pos he]
      rw [lookupScan_cons_ne heH]
    · simp only [removeScan, if_neg he]
      by_cases heH : e.index = H
      · rw [lookupScan_cons_self heH, lookupScan_cons_self heH]
      · rw [lookupScan_cons_ne heH, lookupScan_cons_ne heH, ih]

theorem lookupScan_none_removeScan {ld H : LDAPHandle} {l : List RebindEntry}
    (h : lookupScan H l = none) : lookupScan H (removeScan ld l).2 = none := by
  rw [lookupScan_eq_none_iff] at h ⊢
  exact fun e he => h e (mem_removeScan_snd he)

theorem lookupScan_removeScan_self {H : LDAPHandle} {l : List RebindEntry}
    (h : l.countP (fun e => e.index == H) ≤ 1) :
    lookupScan H (removeScan H l).2 = none := by
  induction l with
  | nil => rfl
  | cons e rest ih =>
    by_cases he : e.index = H
    · simp only [removeScan, if_pos he]
      rw [List.countP_cons_of_pos _ _ (by simpa using he)] at h
      have h0 : rest.countP (fun e => e.index == H) = 0 := by omega
      rw [lookupScan_eq_none_iff]
      intro a ha
      have := (List.countP_eq_zero).1 h0 a ha
      simpa using this
    · simp only [removeScan, if_neg he]
      rw [lookupScan_cons_ne he]
      rw [List.countP_cons_of_neg _ _ (by simpa using he)] at h
      exact ih h

/-! ### Basic lemmas about the cleanup list -/

theorem killCleanup_of_not_mem {p : PoolId} {ld : LDAPHandle}
    {cs : List (PoolId × LDAPHandle)} (h : (p, ld) ∉ cs) :
    killCleanup p ld cs = cs := by
  induction cs with
  | nil => rfl
  | cons c rest ih =>
    simp only [List.mem_cons, not_or] at h
    simp [killCleanup, Ne.symm h.1, ih h.2]

theorem mem_killCleanup {p : PoolId} {ld : LDAPHandle}
    {cs : List (PoolId × LDAPHandle)} {c : PoolId × LDAPHandle}
    (h : c ∈ killCleanup p ld cs) : c ∈ cs := by
  induction cs with
  | nil => simp [killCleanup] at h
  | cons a rest ih =>
    by_cases ha : a = (p, ld)
    · simp only [killCleanup, if_pos ha] at h
      exact List.mem_cons_of_mem _ h
    · simp only [killCleanup, if_neg ha, List.mem_cons] at h
      rcases h with h | h
      · exact h ▸ List.mem_cons_self _ _
      · exact List.mem_cons_of_mem _ (ih h)

theorem popCleanup_spec {p : PoolId} {cs rest : List (PoolId × LDAPHandle)}
    {h : LDAPHandle} (hp : popCleanup p cs = some (h, rest)) :
    (p, h) ∈ cs ∧ ∀ c ∈ rest, c ∈ cs := by
  induction cs generalizing rest with
  | nil => simp [popCleanup] at hp
  | cons a tail ih =>
    by_cases ha : a.1 = p
    · simp only [popCleanup, if_pos ha, Option.some.injEq, Prod.mk.injEq] at hp
      refine ⟨?_, ?_⟩
      · have : a = (p, h) := by
          cases a; simp_all
        exact this ▸ List.mem_cons_self _ _
      · intro c hc
        exact List.mem_cons_of_mem _ (hp.2 ▸ hc)
    · simp only [popCleanup, if_neg ha] at hp
      cases hpop : popCleanup p tail with
      | none => rw [hpop] at hp; simp at hp
      | some v =>
        obtain ⟨h0, r0⟩ := v
        rw [hpop] at hp
        simp only [Option.some.injEq, Prod.mk.injEq] at hp
        obtain ⟨rfl, rfl⟩ := hp
        obtain ⟨hm, hr⟩ := ih hpop
        refine ⟨List.mem_cons_of_mem _ hm, ?_⟩
        intro c hc
        rcases List.mem_cons.1 hc with h | h
        · exact h ▸ List.mem_cons_self _ _
        · exact List.mem_cons_of_mem _ (hr c h)

/-! ### Effect of remove on the state -/

theorem remove_fst (ld : LDAPHandle) (s : RebindState) :
    (apr_ldap_rebind_remove ld s).1 = APR_SUCCESS := by
  unfold apr_ldap_rebind_remove
  rcases h : removeScan ld s.xref_head with ⟨f, rest⟩
  cases f <;> simp

theorem remove_xref (ld : LDAPHandle) (s : RebindState) :
    (apr_ldap_rebind_remove ld s).2.xref_head = (removeScan ld s.xref_head).2 := by
  unfold apr_ldap_rebind_remove
  rcases h : removeScan ld s.xref_head with ⟨f, rest⟩
  cases f with
  | none =>
    have hf := removeScan_fst ld s.xref_head
    rw [h] at hf
    have hnone : lookupScan ld s.xref_head = none := hf.symm
    have h2 := @removeScan_of_lookup_none ld s.xref_head hnone
    rw [h] at h2
    simp only [Prod.mk.injEq] at h2
    simpa using h2.2.symm
  | some e => rfl

theorem remove_lock (ld : LDAPHandle) (s : RebindState) :
    (apr_ldap_rebind_remove ld s).2.lock = s.lock := by
  unfold apr_ldap_rebind_remove
  rcases h : removeScan ld s.xref_head with ⟨f, rest⟩
  cases f <;> simp

theorem remove_cleanups_mem {ld : LDAPHandle} {s : RebindState}
    {c : PoolId × LDAPHandle} (h : c ∈ (apr_ldap_rebind_remove ld s).2.cleanups) :
    c ∈ s.cleanups := by
  unfold apr_ldap_rebind_remove at h
  rcases hr : removeScan ld s.xref_head with ⟨f, rest⟩
  rw [hr] at h
  cases f with
  | none => exact h
  | some e => exact mem_killCleanup h

theorem remove_of_lookup_none {ld : LDAPHandle} {s : RebindState}
    (h : lookupScan ld s.xref_head = none) :
    apr_ldap_rebind_remove ld s = (APR_SUCCESS, s) := by
  unfold apr_ldap_rebind_remove
  rw [removeScan_of_lookup_none h]

/-! ### Preservation of `tracks` by each operation avoiding the handle -/

theorem tracks_remove {H : LDAPHandle} {p : PoolId} {e : RebindEntry}
    {s : RebindState} {ld : LDAPHandle} (hne : ld ≠ H)
    (ht : tracks H p e s) : tracks H p e (apr_ldap_rebind_remove ld s).2 := by
  obtain ⟨h1, h2⟩ := ht
  constructor
  · rw [remove_xref, lookupScan_removeScan_ne hne]
    exact h1
  · intro c hc
    exact h2 c (remove_cleanups_mem hc)

theorem tracks_add {H : LDAPHandle} {p : PoolId} {e : RebindEntry}
    {s : RebindState} (variant : LDAPVariant) (ok : Bool) (q : PoolId)
    {ld : LDAPHandle} (dn pw : Option String) (hne : ld ≠ H)
    (ht : tracks H p e s) :
    tracks H p e (apr_ldap_rebind_add variant ok q ld dn pw s).2 := by
  obtain ⟨h1, h2⟩ := ht
  unfold apr_ldap_rebind_add
  cases ok with
  | false => exact ⟨h1, h2⟩
  | true =>
    simp only [if_true]
    by_cases hv : apr_ldap_rebind_set_callback variant ≠ APR_SUCCESS
    · simp only [if_pos hv]
      refine tracks_remove hne ⟨?_, ?_⟩
      · rw [lookupScan_cons_ne hne]
        exact h1
      · exact h2
    · simp only [if_neg hv]
      refine ⟨?_, ?_⟩
      · rw [lookupScan_cons_ne hne]
        exact h1
      · intro c hc
        rcases List.mem_cons.1 hc with h | h
        · intro hcH
          exact absurd (by rw [h] at hcH; exact hcH) hne
        · exact h2 c h

theorem tracks_run_cleanups {H : LDAPHandle} {p : PoolId} {e : RebindEntry}
    {q : PoolId} (hq : q ≠ p) :
    ∀ (fuel : Nat) (s : RebindState), tracks H p e s →
    tracks H p e (run_cleanups q fuel s) := by
  intro fuel
  induction fuel with
  | zero => intro s ht; exact ht
  | succ n ih =>
    intro s ht
    obtain ⟨h1, h2⟩ := ht
    unfold run_cleanups
    cases hp : popCleanup q s.cleanups with
    | none => exact ⟨h1, h2⟩
    | some v =>
      obtain ⟨h0, rest⟩ := v
      obtain ⟨hm, hsub⟩ := popCleanup_spec hp
      have hh0 : h0 ≠ H := by
        intro hEq
        exact hq (h2 (q, h0) hm (by simpa using hEq))
      apply ih
      exact tracks_remove hh0 ⟨h1, fun c hc => h2 c (hsub c hc)⟩

theorem tracks_runOp {H : LDAPHandle} {p : PoolId} {e : RebindEntry}
    {s : RebindState} (variant : LDAPVariant) {op : RebindOp}
    (hav : opAvoids H p op) (ht : tracks H p e s) :
    tracks H p e (runOp variant op s) := by
  cases op with
  | addOp ok q ld dn pw => exact tracks_add variant ok q dn pw hav ht
  | removeOp ld => exact tracks_remove hav ht
  | destroyOp q => exact tracks_run_cleanups hav _ s ht

theorem tracks_runOps {H : LDAPHandle} {p : PoolId} {e : RebindEntry}
    (variant : LDAPVariant) (ops : List RebindOp)
    (hav : ∀ op ∈ ops, opAvoids H p op) :
    ∀ s : RebindState, tracks H p e s → tracks H p e (runOps variant ops s) := by
  induction ops with
  | nil => intro s ht; exact ht
  | cons op rest ih =>
    intro s ht
    have h1 : opAvoids H p op := hav op (List.mem_cons_self _ _)
    have h2 : ∀ o ∈ rest, opAvoids H p o :=
      fun o ho => hav o (List.mem_cons_of_mem _ ho)
    simp only [runOps, List.foldl_cons]
    exact ih h2 _ (tracks_runOp variant h1 ht)

/-! ### Preservation of lookup misses by cleanup runs -/

theorem lookupScan_none_remove {H ld : LDAPHandle} {s : RebindState}
    (h : lookupScan H s.xref_head = none) :
    lookupScan H (apr_ldap_rebind_remove ld s).2.xref_head = none := by
  rw [remove_xref]
  exact lookupScan_none_removeScan h

theorem lookupScan_none_run_cleanups {H : LDAPHandle} {p : PoolId} :
    ∀ (fuel : Nat) (s : RebindState), lookupScan H s.xref_head = none →
    lookupScan H (run_cleanups p fuel s).xref_head = none := by
  intro fuel
  induction fuel with
  | zero => intro s h; exact h
  | succ n ih =>
    intro s h
    unfold run_cleanups
    cases hp : popCleanup p s.cleanups with
    | none => exact h
    | some v =>
      obtain ⟨h0, rest⟩ := v
      exact ih _ (lookupScan_none_remove h)

/-! ### Characterization of add -/

theorem add_success_state (variant : LDAPVariant) (p : PoolId)
    (ld : LDAPHandle) (dn pw : Option String) (s : RebindState)
    (hvar : apr_ldap_rebind_set_callback variant = APR_SUCCESS) :
    apr_ldap_rebind_add variant true p ld dn pw s =
      (APR_SUCCESS,
        { lock := s.lock,
          xref_head :=
            { pool := p, index := ld, bindDN := dn, bindPW := pw } ::
              s.xref_head,
          cleanups := (p, ld) :: s.cleanups }) := by
  unfold apr_ldap_rebind_add
  simp [hvar]

theorem remove_after_prepend (p : PoolId) (H : LDAPHandle)
    (dn pw : Option String) (s : RebindState) (hcl : (p, H) ∉ s.cleanups) :
    (apr_ldap_rebind_remove H
      { s with xref_head :=
          { pool := p, index := H, bindDN := dn, bindPW := pw } ::
            s.xref_head }).2 = s := by
  unfold apr_ldap_rebind_remove
  simp only [removeScan, if_pos rfl]
  simp [killCleanup_of_not_mem hcl]

theorem filter_removeScan_self (H : LDAPHandle) (l : List RebindEntry) :
    ((removeScan H l).2).filter (fun e => e.index != H) =
      l.filter (fun e => e.index != H) := by
  induction l with
  | nil => rfl
  | cons e rest ih =>
    by_cases he : e.index = H
    · simp only [removeScan, if_pos he]
      rw [List.filter_cons_of_neg (by simp [he])]
    · simp only [removeScan, if_neg he]
      rw [List.filter_cons_of_pos (by simp [he]),
          List.filter_cons_of_pos (by simp [he]), ih]

/-! ### The claims -/

/-- C9: apr_ldap_rebind_init is idempotent: with the lock not yet created,
the call returns the outcome of apr_thread_mutex_create, and after a
successful first call every later call observes the lock already created,
creates nothing, leaves the state unchanged, and returns APR_SUCCESS. -/
theorem rebind_init_idempotent (s : RebindState) (cs cs2 : Nat)
    (hlock : s.lock = false) :
    (apr_ldap_rebind_init cs s).1 = cs ∧
    (cs = APR_SUCCESS →
      apr_ldap_rebind_init cs s = (APR_SUCCESS, { s with lock := true }) ∧
      apr_ldap_rebind_init cs2 (apr_ldap_rebind_init cs s).2 =
        (APR_SUCCESS, (apr_ldap_rebind_init cs s).2)) := by
  constructor
  · simp [apr_ldap_rebind_init, hlock]
  · intro hcs
    subst hcs
    constructor
    · simp [apr_ldap_rebind_init, hlock]
    · simp [apr_ldap_rebind_init, hlock]

/-- Witness for C9 at a concrete input: the first call on the initial
state with a successful mutex creation, followed by a second call with an
arbitrary failing creation status. -/
theorem rebind_init_idempotent_witness :
    initialRebindState.lock = false ∧
    ((apr_ldap_rebind_init APR_SUCCESS initialRebindState).1 = APR_SUCCESS ∧
    (APR_SUCCESS = APR_SUCCESS →
      apr_ldap_rebind_init APR_SUCCESS initialRebindState =
        (APR_SUCCESS, { initialRebindState with lock := true }) ∧
      apr_ldap_rebind_init 5
          (apr_ldap_rebind_init APR_SUCCESS initialRebindState).2 =
        (APR_SUCCESS,
          (apr_ldap_rebind_init APR_SUCCESS initialRebindState).2))) :=
  ⟨rfl, rebind_init_idempotent initialRebindState APR_SUCCESS 5 rfl⟩

/-- C10: add for handle H and remove for handle H leave every registry
entry whose handle differs from H unchanged (same pool, DN and secret) and
in the same relative order: the sublist of entries for other handles is
untouched. -/
theorem add_remove_frame (variant : LDAPVariant) (ok : Bool) (p : PoolId)
    (H : LDAPHandle) (dn pw : Option String) (s : RebindState) :
    (apr_ldap_rebind_add variant ok p H dn pw s).2.xref_head.filter
        (fun e => e.index != H) =
      s.xref_head.filter (fun e => e.index != H) ∧
    (apr_ldap_rebind_remove H s).2.xref_head.filter (fun e => e.index != H) =
      s.xref_head.filter (fun e => e.index != H) := by
  constructor
  · unfold apr_ldap_rebind_add
    cases ok with
    | false => rfl
    | true =>
      simp only [if_true]
      by_cases hv : apr_ldap_rebind_set_callback variant ≠ APR_SUCCESS
      · simp only [if_pos hv]
        rw [remove_xref]
        simp [removeScan]
      · simp only [if_neg hv]
        rw [List.filter_cons_of_neg (by simp)]
  · rw [remove_xref]
    exact filter_removeScan_self H s.xref_head

/-! ### Anonymous dispatch of the shims -/

theorem tivoli_anon_dispatch (s : RebindState) (ld : LDAPHandle)
    (bp pp : Option String) (mp : Nat)
    (h : ∀ e, apr_ldap_rebind_lookup ld s = some e → e.bindDN = none) :
    LDAP_rebindproc_tivoli s ld bp pp mp false =
      some (LDAP_SUCCESS, none, none, LDAP_AUTH_SIMPLE) := by
  unfold LDAP_rebindproc_tivoli
  cases hl : apr_ldap_rebind_lookup ld s with
  | none => simp [hl]
  | some e =>
    have hd := h e hl
    simp [hl, hd]

theorem openldap_anon_dispatch
    (bind : LDAPHandle → Option String → Option String → Nat → Int)
    (s : RebindState) (ld : LDAPHandle)
    (h : ∀ e, apr_ldap_rebind_lookup ld s = some e → e.bindDN = none) :
    LDAP_rebindproc_openldap bind s ld = bind ld none none LDAP_AUTH_SIMPLE := by
  unfold LDAP_rebindproc_openldap
  cases hl : apr_ldap_rebind_lookup ld s with
  | none => simp [hl]
  | some e =>
    have hd := h e hl
    simp [hl, hd]

/-- C8: the OpenLDAP-style shim performs lookup and then calls the engine
bind primitive with exactly the registered DN and secret (nulls when no
entry or no DN is registered) and the simple-auth mechanism, and returns
the primitive result verbatim, adding no interpretation. The right hand
side is phrased through specRebindCredentials, modelled from the spec. -/
theorem openldap_rebind_passthrough
    (bind : LDAPHandle → Option String → Option String → Nat → Int)
    (s : RebindState) (ld : LDAPHandle) :
    LDAP_rebindproc_openldap bind s ld =
      bind ld (specRebindCredentials s ld).1 (specRebindCredentials s ld).2
        LDAP_AUTH_SIMPLE := by
  unfold LDAP_rebindproc_openldap specRebindCredentials
  cases hl : apr_ldap_rebind_lookup ld s with
  | none => simp [hl]
  | some e =>
    cases hd : e.bindDN with
    | none => simp [hl, hd]
    | some dn => simp [hl, hd]

/-- C7: a lookup miss or an absent DN at rebind time is not an error: for
every handle whose lookup yields no entry or an entry with a null DN, the
Tivoli shim in lookup mode hands back null DN and null secret and returns
LDAP_SUCCESS, and the OpenLDAP shim issues an anonymous bind with null DN
and null secret, reporting no failure of its own. -/
theorem lookup_miss_not_error (s : RebindState) (ld : LDAPHandle)
    (bp pp : Option String) (mp : Nat)
    (h : ∀ e, apr_ldap_rebind_lookup ld s = some e → e.bindDN = none) :
    LDAP_rebindproc_tivoli s ld bp pp mp false =
      some (LDAP_SUCCESS, none, none, LDAP_AUTH_SIMPLE) ∧
    ∀ bind, LDAP_rebindproc_openldap bind s ld =
      bind ld none none LDAP_AUTH_SIMPLE :=
  ⟨tivoli_anon_dispatch s ld bp pp mp h,
   fun bind => openldap_anon_dispatch bind s ld h⟩

/-- Witness for C7 at a concrete input: the empty registry and handle 7. -/
theorem lookup_miss_not_error_witness :
    (∀ e, apr_ldap_rebind_lookup 7 initialRebindState = some e →
      e.bindDN = none) ∧
    (LDAP_rebindproc_tivoli initialRebindState 7 none none 0 false =
        some (LDAP_SUCCESS, none, none, LDAP_AUTH_SIMPLE) ∧
      ∀ bind, LDAP_rebindproc_openldap bind initialRebindState 7 =
        bind 7 none none LDAP_AUTH_SIMPLE) :=
  ⟨fun e he => by
      simp [apr_ldap_rebind_lookup, initialRebindState, lookupScan] at he,
   lookup_miss_not_error initialRebindState 7 none none 0
    (fun e he => by
      simp [apr_ldap_rebind_lookup, initialRebindState, lookupScan] at he)⟩

/-- C4 counterexample: a registry whose entry for handle 1 has a non-null
DN and a null secret — credentials the claim calls absent — drives the
Tivoli shim into strdup of a null pointer: the modelled result is none
(undefined behavior), not an anonymous dispatch, refuting the claim that a
rebind event for such a state never crashes. -/
theorem tivoli_null_secret_crash :
    (RebindEntry.bindPW
      { pool := 0, index := 1, bindDN := some "cn=admin,dc=x",
        bindPW := none } = none) ∧
    LDAP_rebindproc_tivoli
      { lock := true,
        xref_head :=
          [{ pool := 0, index := 1, bindDN := some "cn=admin,dc=x",
             bindPW := none }],
        cleanups := [(0, 1)] } 1 none none 0 false = none :=
  ⟨rfl, rfl⟩

/-- C4 (amended): a rebind event for a handle with no registry entry, or
with an entry whose DN is null, yields anonymous dispatch — null DN and
secret handed back (Tivoli) or an anonymous bind attempted (OpenLDAP) —
and never a crash or error; an entry with a non-null DN and a null secret
is excluded, since there the Tivoli shim runs strdup on a null pointer
(undefined behavior) and the OpenLDAP shim binds with that DN. -/
theorem rebind_absent_credentials_anonymous (s : RebindState)
    (ld : LDAPHandle) (bp pp : Option String) (mp : Nat)
    (h : apr_ldap_rebind_lookup ld s = none ∨
      ∃ e, apr_ldap_rebind_lookup ld s = some e ∧ e.bindDN = none) :
    (LDAP_rebindproc_tivoli s ld bp pp mp false).isSome = true ∧
    LDAP_rebindproc_tivoli s ld bp pp mp false =
      some (LDAP_SUCCESS, none, none, LDAP_AUTH_SIMPLE) ∧
    ∀ bind, LDAP_rebindproc_openldap bind s ld =
      bind ld none none LDAP_AUTH_SIMPLE := by
  have h2 : ∀ e, apr_ldap_rebind_lookup ld s = some e → e.bindDN = none := by
    intro e he
    rcases h with h | ⟨e2, he2, hd⟩
    · rw [h] at he
      exact Option.noConfusion he
    · rw [he2] at he
      injection he with h3
      exact h3 ▸ hd
  refine ⟨?_, tivoli_anon_dispatch s ld bp pp mp h2,
    fun bind => openldap_anon_dispatch bind s ld h2⟩
  rw [tivoli_anon_dispatch s ld bp pp mp h2]
  rfl

/-- Witness for the amended C4 at a concrete input: a registry whose entry
for handle 3 has a null DN (and a non-null secret). -/
theorem rebind_absent_credentials_anonymous_witness :
    (apr_ldap_rebind_lookup 3
        { lock := true,
          xref_head :=
            [{ pool := 2, index := 3, bindDN := none, bindPW := some "pw" }],
          cleanups := [(2, 3)] } = none ∨
      ∃ e, apr_ldap_rebind_lookup 3
          { lock := true,
            xref_head :=
              [{ pool := 2, index := 3, bindDN := none,
                 bindPW := some "pw" }],
            cleanups := [(2, 3)] } = some e ∧ e.bindDN = none) ∧
    ((LDAP_rebindproc_tivoli
        { lock := true,
          xref_head :=
            [{ pool := 2, index := 3, bindDN := none, bindPW := some "pw" }],
          cleanups := [(2, 3)] } 3 none none 0 false).isSome = true ∧
      LDAP_rebindproc_tivoli
        { lock := true,
          xref_head :=
            [{ pool := 2, index := 3, bindDN := none, bindPW := some "pw" }],
          cleanups := [(2, 3)] } 3 none none 0 false =
        some (LDAP_SUCCESS, none, none, LDAP_AUTH_SIMPLE) ∧
      ∀ bind, LDAP_rebindproc_openldap bind
          { lock := true,
            xref_head :=
              [{ pool := 2, index := 3, bindDN := none,
                 bindPW := some "pw" }],
            cleanups := [(2, 3)] } 3 =
        bind 3 none none LDAP_AUTH_SIMPLE) :=
  ⟨Or.inr ⟨_, rfl, rfl⟩,
   rebind_absent_credentials_anonymous _ 3 none none 0 (Or.inr ⟨_, rfl, rfl⟩)⟩

/-- C1: in a build with no recognized LDAP SDK variant configured, for
every pool, handle, DN and secret (with the entry allocation succeeding),
add returns APR_ENOTIMPL and leaves the state exactly as it was: the
prepended entry is rolled back via remove before returning, so no entry
for that handle remains registered beyond those already present and no
cleanup for it is left armed. -/
theorem add_notimpl_leaves_registry_unchanged (p : PoolId) (H : LDAPHandle)
    (dn pw : Option String) (s : RebindState)
    (hcl : ∀ q : PoolId, (q, H) ∉ s.cleanups) :
    apr_ldap_rebind_add .unrecognized true p H dn pw s = (APR_ENOTIMPL, s) ∧
    (lookupScan H s.xref_head = none →
      apr_ldap_rebind_lookup H
        (apr_ldap_rebind_add .unrecognized true p H dn pw s).2 = none) ∧
    ∀ q : PoolId,
      (q, H) ∉ (apr_ldap_rebind_add .unrecognized true p H dn pw s).2.cleanups := by
  have h1 : APR_ENOTIMPL ≠ APR_SUCCESS := by decide
  have hstate :
      apr_ldap_rebind_add .unrecognized true p H dn pw s = (APR_ENOTIMPL, s) := by
    unfold apr_ldap_rebind_add
    simp only [apr_ldap_rebind_set_callback, ne_eq, if_true, if_pos h1]
    rw [remove_after_prepend p H dn pw s (hcl p)]
  refine ⟨hstate, ?_, ?_⟩
  · intro hent
    rw [hstate]
    exact hent
  · intro q
    rw [hstate]
    exact hcl q

/-- Witness for C1 at a concrete input: handle 1 and pool 0 on the empty
registry. -/
theorem add_notimpl_leaves_registry_unchanged_witness :
    (∀ q : PoolId, (q, 1) ∉ initialRebindState.cleanups) ∧
    (apr_ldap_rebind_add .unrecognized true 0 1 (some "cn=admin,dc=x")
        (some "secret") initialRebindState = (APR_ENOTIMPL, initialRebindState) ∧
      (lookupScan 1 initialRebindState.xref_head = none →
        apr_ldap_rebind_lookup 1
          (apr_ldap_rebind_add .unrecognized true 0 1 (some "cn=admin,dc=x")
            (some "secret") initialRebindState).2 = none) ∧
      ∀ q : PoolId,
        (q, 1) ∉ (apr_ldap_rebind_add .unrecognized true 0 1
          (some "cn=admin,dc=x") (some "secret") initialRebindState).2.cleanups) :=
  ⟨fun q hq => by simp [initialRebindState] at hq,
   add_notimpl_leaves_registry_unchanged 0 1 (some "cn=admin,dc=x")
    (some "secret") initialRebindState
    (fun q hq => by simp [initialRebindState] at hq)⟩

/-- C6: given at most one registry entry for handle H, after remove a
lookup for H misses; removing again is a no-op that returns APR_SUCCESS
and leaves the state unchanged, as is removing a handle that was never
added. -/
theorem remove_idempotent (H : LDAPHandle) (s : RebindState)
    (huniq : s.xref_head.countP (fun e => e.index == H) ≤ 1) :
    lookupScan H ((apr_ldap_rebind_remove H s).2).xref_head = none ∧
    apr_ldap_rebind_remove H ((apr_ldap_rebind_remove H s).2) =
      (APR_SUCCESS, (apr_ldap_rebind_remove H s).2) ∧
    (lookupScan H s.xref_head = none →
      apr_ldap_rebind_remove H s = (APR_SUCCESS, s)) := by
  have hmiss : lookupScan H ((apr_ldap_rebind_remove H s).2).xref_head = none := by
    rw [remove_xref]
    exact lookupScan_removeScan_self huniq
  exact ⟨hmiss, remove_of_lookup_none hmiss, fun h => remove_of_lookup_none h⟩

/-- Witness for C6 at a concrete input: a registry with exactly one entry
for handle 1. -/
theorem remove_idempotent_witness :
    (RebindState.xref_head
        { lock := true,
          xref_head :=
            [{ pool := 0, index := 1, bindDN := some "cn=a", bindPW := some "s" }],
          cleanups := [(0, 1)] }).countP (fun e => e.index == 1) ≤ 1 ∧
    (lookupScan 1 ((apr_ldap_rebind_remove 1
        { lock := true,
          xref_head :=
            [{ pool := 0, index := 1, bindDN := some "cn=a", bindPW := some "s" }],
          cleanups := [(0, 1)] }).2).xref_head = none ∧
      apr_ldap_rebind_remove 1 ((apr_ldap_rebind_remove 1
          { lock := true,
            xref_head :=
              [{ pool := 0, index := 1, bindDN := some "cn=a", bindPW := some "s" }],
            cleanups := [(0, 1)] }).2) =
        (APR_SUCCESS, (apr_ldap_rebind_remove 1
          { lock := true,
            xref_head :=
              [{ pool := 0, index := 1, bindDN := some "cn=a", bindPW := some "s" }],
            cleanups := [(0, 1)] }).2) ∧
      (lookupScan 1
          (RebindState.xref_head
            { lock := true,
              xref_head :=
                [{ pool := 0, index := 1, bindDN := some "cn=a", bindPW := some "s" }],
              cleanups := [(0, 1)] }) = none →
        apr_ldap_rebind_remove 1
            { lock := true,
              xref_head :=
                [{ pool := 0, index := 1, bindDN := some "cn=a", bindPW := some "s" }],
              cleanups := [(0, 1)] } =
          (APR_SUCCESS,
            { lock := true,
              xref_head :=
                [{ pool := 0, index := 1, bindDN := some "cn=a", bindPW := some "s" }],
              cleanups := [(0, 1)] }))) :=
  ⟨by decide,
   remove_idempotent 1
    { lock := true,
      xref_head :=
        [{ pool := 0, index := 1, bindDN := some "cn=a", bindPW := some "s" }],
      cleanups := [(0, 1)] } (by decide)⟩

/-- C5: when duplicate entries exist for handle H because add was called
twice for H, lookup returns the most recently added credentials (add
prepends and lookup scans head first), and remove unlinks only that most
recent entry, restoring exactly the list that preceded the second add. -/
theorem duplicate_add_most_recent_wins (variant : LDAPVariant)
    (p1 p2 : PoolId) (H : LDAPHandle) (dn1 pw1 dn2 pw2 : Option String)
    (s : RebindState)
    (hvar : apr_ldap_rebind_set_callback variant = APR_SUCCESS) :
    apr_ldap_rebind_lookup H
        (apr_ldap_rebind_add variant true p2 H dn2 pw2
          (apr_ldap_rebind_add variant true p1 H dn1 pw1 s).2).2 =
      some { pool := p2, index := H, bindDN := dn2, bindPW := pw2 } ∧
    (apr_ldap_rebind_remove H
        (apr_ldap_rebind_add variant true p2 H dn2 pw2
          (apr_ldap_rebind_add variant true p1 H dn1 pw1 s).2).2).2.xref_head =
      (apr_ldap_rebind_add variant true p1 H dn1 pw1 s).2.xref_head := by
  rw [add_success_state variant p1 H dn1 pw1 s hvar,
      add_success_state variant p2 H dn2 pw2 _ hvar]
  constructor
  · exact lookupScan_cons_self rfl _
  · rw [remove_xref]
    simp [removeScan]

/-- Witness for C5 at a concrete input: two adds for handle 1 with
different credentials on the empty registry, in the Tivoli build. -/
theorem duplicate_add_most_recent_wins_witness :
    apr_ldap_rebind_set_callback .tivoli = APR_SUCCESS ∧
    (apr_ldap_rebind_lookup 1
        (apr_ldap_rebind_add .tivoli true 4 1 (some "cn=new") (some "pw2")
          (apr_ldap_rebind_add .tivoli true 0 1 (some "cn=old") (some "pw1")
            initialRebindState).2).2 =
      some { pool := 4, index := 1, bindDN := some "cn=new",
             bindPW := some "pw2" } ∧
    (apr_ldap_rebind_remove 1
        (apr_ldap_rebind_add .tivoli true 4 1 (some "cn=new") (some "pw2")
          (apr_ldap_rebind_add .tivoli true 0 1 (some "cn=old") (some "pw1")
            initialRebindState).2).2).2.xref_head =
      (apr_ldap_rebind_add .tivoli true 0 1 (some "cn=old") (some "pw1")
        initialRebindState).2.xref_head) :=
  ⟨rfl,
   duplicate_add_most_recent_wins .tivoli 0 4 1 (some "cn=old") (some "pw1")
    (some "cn=new") (some "pw2") initialRebindState rfl⟩

/-- C3: no entry outlives its owning pool: after a successful add of handle
H on pool p (H not previously registered), destroying p without a prior
explicit remove fires the cleanup registered on p, which removes the
entry, so a lookup for H afterwards misses. -/
theorem pool_destroy_removes_entry (variant : LDAPVariant) (p : PoolId)
    (H : LDAPHandle) (dn pw : Option String) (s : RebindState)
    (hvar : apr_ldap_rebind_set_callback variant = APR_SUCCESS)
    (hent : lookupScan H s.xref_head = none)
    (hcl : ∀ c ∈ s.cleanups, c.2 ≠ H) :
    apr_ldap_rebind_lookup H
      (apr_pool_destroy p
        (apr_ldap_rebind_add variant true p H dn pw s).2) = none := by
  have hmem : (p, H) ∉ s.cleanups := fun hm => hcl (p, H) hm rfl
  rw [add_success_state variant p H dn pw s hvar]
  unfold apr_ldap_rebind_lookup apr_pool_destroy
  simp only [List.length_cons]
  rw [run_cleanups]
  simp only [popCleanup, if_true]
  unfold apr_ldap_rebind_remove_helper
  rw [remove_after_prepend p H dn pw s hmem]
  exact lookupScan_none_run_cleanups _ _ hent

/-- Witness for C3 at a concrete input: add handle 1 on pool 0 to the
empty registry in the OpenLDAP build, then destroy pool 0. -/
theorem pool_destroy_removes_entry_witness :
    apr_ldap_rebind_set_callback .openldap = APR_SUCCESS ∧
    lookupScan 1 initialRebindState.xref_head = none ∧
    (∀ c ∈ initialRebindState.cleanups, c.2 ≠ 1) ∧
    apr_ldap_rebind_lookup 1
      (apr_pool_destroy 0
        (apr_ldap_rebind_add .openldap true 0 1 (some "cn=admin,dc=x")
          (some "secret") initialRebindState).2) = none :=
  ⟨rfl, rfl, fun c hc => by simp [initialRebindState] at hc,
   pool_destroy_removes_entry .openldap 0 1 (some "cn=admin,dc=x")
    (some "secret") initialRebindState rfl rfl
    (fun c hc => by simp [initialRebindState] at hc)⟩

/-- C2: if add of (p, H, dn, secret) succeeds, then as long as no later
operation removes H, adds H again, or destroys p, a lookup for H returns
an entry carrying exactly the dn and secret passed to add, with absent
(null) values preserved as absent. The pre-state may not have a cleanup
for H armed on another pool (no entry for H may be live elsewhere). -/
theorem add_lookup_persists (variant : LDAPVariant) (p : PoolId)
    (H : LDAPHandle) (dn pw : Option String) (s : RebindState)
    (ops : List RebindOp)
    (hvar : apr_ldap_rebind_set_callback variant = APR_SUCCESS)
    (hcl : ∀ c ∈ s.cleanups, c.2 = H → c.1 = p)
    (hops : ∀ op ∈ ops, opAvoids H p op) :
    (apr_ldap_rebind_add variant true p H dn pw s).1 = APR_SUCCESS ∧
    apr_ldap_rebind_lookup H
        (runOps variant ops (apr_ldap_rebind_add variant true p H dn pw s).2) =
      some { pool := p, index := H, bindDN := dn, bindPW := pw } := by
  constructor
  · rw [add_success_state variant p H dn pw s hvar]
  · have ht : tracks H p { pool := p, index := H, bindDN := dn, bindPW := pw }
        (apr_ldap_rebind_add variant true p H dn pw s).2 := by
      rw [add_success_state variant p H dn pw s hvar]
      constructor
      · exact lookupScan_cons_self rfl _
      · intro c hc hch
        rcases List.mem_cons.1 hc with h | h
        · rw [h]
        · exact hcl c h hch
    exact (tracks_runOps variant ops hops _ ht).1

/-- Witness for C2 at a concrete input: add handle 1 on pool 0, then add
and remove handle 5 on pool 2 and destroy pool 3; the lookup for handle 1
still returns the registered credentials. -/
theorem add_lookup_persists_witness :
    apr_ldap_rebind_set_callback .openldap = APR_SUCCESS ∧
    (∀ c ∈ initialRebindState.cleanups, c.2 = 1 → c.1 = 0) ∧
    (∀ op ∈ [RebindOp.addOp true 2 5 none (some "pw"),
             RebindOp.removeOp 5, RebindOp.destroyOp 3], opAvoids 1 0 op) ∧
    ((apr_ldap_rebind_add .openldap true 0 1 (some "cn=admin,dc=x")
        (some "secret") initialRebindState).1 = APR_SUCCESS ∧
      apr_ldap_rebind_lookup 1
          (runOps .openldap
            [RebindOp.addOp true 2 5 none (some "pw"),
             RebindOp.removeOp 5, RebindOp.destroyOp 3]
            (apr_ldap_rebind_add .openldap true 0 1 (some "cn=admin,dc=x")
              (some "secret") initialRebindState).2) =
        some { pool := 0, index := 1, bindDN := some "cn=admin,dc=x",
               bindPW := some "secret" }) :=
  ⟨rfl,
   fun c hc => by simp [initialRebindState] at hc,
   by
     intro op hop
     rcases List.mem_cons.1 hop with h | hop
     · rw [h]; exact fun h5 => by simp at h5
     rcases List.mem_cons.1 hop with h | hop
     · rw [h]; exact fun h5 => by simp at h5
     rcases List.mem_cons.1 hop with h | hop
     · rw [h]; exact fun h3 => by simp at h3
     · exact absurd hop (by simp),
   add_lookup_persists .openldap 0 1 (some "cn=admin,dc=x") (some "secret")
    initialRebindState
    [RebindOp.addOp true 2 5 none (some "pw"),
     RebindOp.removeOp 5, RebindOp.destroyOp 3]
    rfl
    (fun c hc => by simp [initialRebindState] at hc)
    (by
     intro op hop
     rcases List.mem_cons.1 hop with h | hop
     · rw [h]; exact fun h5 => by simp at h5
     rcases List.mem_cons.1 hop with h | hop
     · rw [h]; exact fun h5 => by simp at h5
     rcases List.mem_cons.1 hop with h | hop
     · rw [h]; exact fun h3 => by simp at h3
     · exact absurd hop (by simp))⟩
